import Mathlib

/-!
# Verification of the OpenAI streaming provider adapter

This development shallowly embeds the streaming answer-accumulation core of
the repository: the class `OpenAIProvider` (constructor defaulting of the
API base URL, the chat-completions endpoint URL, and the `generateAnswer`
per-frame `onMessage` handler that turns SSE frame payloads into caller
events).

Modelling decisions:

* An SSE frame payload is a string.  `onMessage` first compares it with the
  literal sentinel `"[DONE]"` and otherwise runs it through `JSON.parse`.
  We abstract the outcome of that comparison-plus-parse as the inductive
  `Message`: `doneSentinel` stands for the exact sentinel string,
  `malformed raw` for a non-sentinel string on which `JSON.parse` throws,
  and `parsed data` for a non-sentinel string that parses to the object
  `data`.  Only the fields the handler reads are retained in `Payload`
  (top-level `id`, the `choices` array with each choice's `delta.content`
  and `finish_reason`); `Option` marks fields that may be absent.
* JavaScript truthiness on the string-valued fields the code tests
  (`data.id`, `delta?.content`) is: absent (undefined/null) and the empty
  string are falsy, every other string is truthy.  `jsTruthy` models this.
* The handler mutates two captured variables, `result` and `messageId`;
  they form the explicit `StreamState`, threaded through the frames in
  delivery order.  `params.onEvent` calls are collected into a list of
  `Event`s in emission order.
* The provider's `token` and `model` fields are carried but do not affect
  event processing, so `generateAnswer` is modelled as a function of the
  delivered frame sequence alone.
-/

/-- The `delta` object of a choice: only `content` is read by the code. -/
structure ChoiceDelta where
  content : Option String
deriving DecidableEq, Repr

/-- One element of the `choices` array, as read by the code
(`const { delta, finish_reason } = data.choices[0]`). -/
structure Choice where
  delta : Option ChoiceDelta
  finish_reason : Option String
deriving DecidableEq, Repr

/-- The parsed JSON payload of a non-sentinel frame, restricted to the
fields the handler reads: top-level `id` and `choices`. -/
structure Payload where
  id : Option String
  choices : Option (List Choice)
deriving DecidableEq, Repr

/-- A frame payload as seen by `onMessage`, abstracted over the sentinel
comparison and the outcome of `JSON.parse` (see the module docstring). -/
inductive Message where
  | doneSentinel : Message
  | malformed (raw : String) : Message
  | parsed (data : Payload) : Message
deriving DecidableEq, Repr

/-- The two captured mutable variables of one `generateAnswer` call:
`let result = ''` and `let messageId = ''`. -/
structure StreamState where
  result : String
  messageId : String
deriving DecidableEq, Repr

/-- A caller-visible event passed to `params.onEvent`.  The `error`
variant exists in the caller-facing event contract; whether the code under
verification ever constructs it is settled by the theorems below. -/
inductive Event where
  | answer (text : String) (messageId : String) (conversationId : String) : Event
  | done : Event
  | error (message : String) : Event
deriving DecidableEq, Repr

/-- JavaScript truthiness of an optional string field: `undefined`/`null`
and `""` are falsy. -/
def jsTruthy : Option String → Bool
  | none => false
  | some s => !(s == "")

/-- `if (!messageId && data.id) { messageId = data.id }` (lines 42-44). -/
def recordId (st : StreamState) (p : Payload) : StreamState :=
  if st.messageId = "" ∧ jsTruthy p.id = true then
    { st with messageId := p.id.getD "" }
  else st

/-- `const content = delta?.content || ''` (line 54). -/
def extractContent (c : Choice) : String :=
  (c.delta.bind ChoiceDelta.content).getD ""

/-- The body of the `try` block after a successful `JSON.parse`
(lines 42-66): record the id, then, if `choices` is non-empty, either emit
`done` on a `"stop"` finish reason or append a non-empty content delta and
emit an `answer` carrying the accumulated text and the recorded id as both
message and conversation identifier. -/
def handleParsed (st : StreamState) (p : Payload) : StreamState × List Event :=
  let st1 := recordId st p
  match p.choices with
  | some (c :: _) =>
      if c.finish_reason = some "stop" then
        (st1, [Event.done])
      else
        let content := extractContent c
        if content = "" then
          (st1, [])
        else
          let st2 := { st1 with result := st1.result ++ content }
          (st2, [Event.answer st2.result st2.messageId st2.messageId])
  | _ => (st1, [])

/-- The `onMessage` frame handler of `generateAnswer` (lines 33-71):
sentinel frames emit `done` and return; frames whose payload fails
`JSON.parse` are swallowed by the `catch` (a diagnostic log only); parsed
frames are handled by `handleParsed`.  Returns the updated captured state
and the events emitted for this frame, in order. -/
def onMessage (st : StreamState) (m : Message) : StreamState × List Event :=
  match m with
  | Message.doneSentinel => (st, [Event.done])
  | Message.malformed _ => (st, [])
  | Message.parsed p => handleParsed st p

/-- The events emitted by one `generateAnswer` call for a sequence of
frames delivered to its `onMessage` handler, in emission order. -/
def processFrames (st : StreamState) : List Message → List Event
  | [] => []
  | m :: ms =>
      let r := onMessage st m
      r.2 ++ processFrames r.1 ms

/-- The captured state after `onMessage` has handled a sequence of frames. -/
def runState (st : StreamState) : List Message → StreamState
  | [] => st
  | m :: ms => runState (onMessage st m).1 ms

/-- The initial captured state of a call: `result = ''`, `messageId = ''`
(lines 19-20). -/
def initState : StreamState := { result := "", messageId := "" }

/-- The caller-visible event sequence of one `generateAnswer` invocation,
as a function of the frames delivered to `onMessage`. -/
def generateAnswer (msgs : List Message) : List Event :=
  processFrames initState msgs

/-- The provider object after construction (lines 4-9). -/
structure OpenAIProvider where
  token : String
  model : String
  apiBaseUrl : String
deriving DecidableEq, Repr

/-- The constructor (lines 5-9): `this.apiBaseUrl = apiBaseUrl ||
'https://api.openai.com'`, so an omitted/`undefined` (modelled `none`) or
empty-string argument falls back to the default host. -/
def OpenAIProvider.create (token model : String) (apiBaseUrl : Option String) :
    OpenAIProvider :=
  { token := token
    model := model
    apiBaseUrl :=
      match apiBaseUrl with
      | none => "https://api.openai.com"
      | some s => if s = "" then "https://api.openai.com" else s }

/-- The URL `generateAnswer` POSTs to:
`` `${this.apiBaseUrl}/v1/chat/completions` `` (line 21). -/
def OpenAIProvider.chatCompletionsUrl (p : OpenAIProvider) : String :=
  p.apiBaseUrl ++ "/v1/chat/completions"

/-! ## Specification-side vocabulary -/

/-- `a` is a (non-strict) prefix of `b`, on strings. -/
def StrPrefixOf (a b : String) : Prop := ∃ t, a ++ t = b

/-- The cumulative text carried by an `answer` event, if any. -/
def eventText : Event → Option String
  | Event.answer t _ _ => some t
  | _ => none

/-- The texts of the `answer` events of an event sequence, in order. -/
def answerTexts (es : List Event) : List String := es.filterMap eventText

/-- Whether an event is the terminal `error` variant. -/
def isError : Event → Bool
  | Event.error _ => true
  | _ => false

/-- Whether a frame makes `onMessage` emit `done`: the sentinel, or a
parsed payload whose first choice has finish reason `"stop"`. -/
def emitsDone : Message → Bool
  | Message.doneSentinel => true
  | Message.malformed _ => false
  | Message.parsed p =>
      match p.choices with
      | some (c :: _) => if c.finish_reason = some "stop" then true else false
      | _ => false

/-- Whether a frame is a successfully parsed payload carrying a (truthy)
top-level `id`. -/
def carriesId : Message → Bool
  | Message.parsed p => jsTruthy p.id
  | _ => false

/-- The `id` carried by a parsed frame (empty when absent). -/
def idOf : Message → String
  | Message.parsed p => p.id.getD ""
  | _ => ""

/-- Spec-side definition, following the specification's wording: the
identifier carried by the first successfully parsed frame of the sequence
that carries one, or the empty string when no frame does.  To be compared
with the identifier the code actually records. -/
def specFirstId : List Message → String
  | [] => ""
  | m :: ms => if carriesId m = true then idOf m else specFirstId ms

/-! ## Step-shape lemmas -/

lemma recordId_result (st : StreamState) (p : Payload) :
    (recordId st p).result = st.result := by
  unfold recordId; split <;> rfl

lemma String.strPrefixOf_refl (a : String) : StrPrefixOf a a :=
  ⟨"", String.append_empty a⟩

lemma String.strPrefixOf_append (a t : String) : StrPrefixOf a (a ++ t) :=
  ⟨t, rfl⟩

/-- Per-frame case analysis of `onMessage`: either no event is emitted and
the accumulated text is unchanged, or a single `done` is emitted and the
accumulated text is unchanged, or a single `answer` is emitted whose text
is the accumulated text extended by the frame's non-empty content delta,
with equal message and conversation identifiers. -/
lemma onMessage_cases (st : StreamState) (m : Message) :
    ((onMessage st m).1.result = st.result ∧ (onMessage st m).2 = [])
    ∨ ((onMessage st m).1.result = st.result ∧ (onMessage st m).2 = [Event.done])
    ∨ (∃ c, c ≠ "" ∧ (onMessage st m).1.result = st.result ++ c ∧
        (onMessage st m).2 =
          [Event.answer (st.result ++ c) (onMessage st m).1.messageId
            (onMessage st m).1.messageId]) := by
  cases m with
  | doneSentinel => exact Or.inr (Or.inl ⟨rfl, rfl⟩)
  | malformed raw => exact Or.inl ⟨rfl, rfl⟩
  | parsed p =>
      show _ ∨ _ ∨ _
      rcases hc : p.choices with _ | cs
      · exact Or.inl ⟨by simp [onMessage, handleParsed, hc, recordId_result], by
          simp [onMessage, handleParsed, hc]⟩
      · rcases cs with _ | ⟨c, rest⟩
        · exact Or.inl ⟨by simp [onMessage, handleParsed, hc, recordId_result], by
            simp [onMessage, handleParsed, hc]⟩
        · by_cases hf : c.finish_reason = some "stop"
          · exact Or.inr (Or.inl ⟨by
              simp [onMessage, handleParsed, hc, hf, recordId_result], by
              simp [onMessage, handleParsed, hc, hf]⟩)
          · by_cases hcont : extractContent c = ""
            · exact Or.inl ⟨by
                simp [onMessage, handleParsed, hc, hf, hcont, recordId_result], by
                simp [onMessage, handleParsed, hc, hf, hcont]⟩
            · refine Or.inr (Or.inr ⟨extractContent c, hcont, ?_, ?_⟩)
              · simp [onMessage, handleParsed, hc, hf, hcont, recordId_result]
              · simp [onMessage, handleParsed, hc, hf, hcont, recordId_result]

lemma handleParsed_mid (st : StreamState) (p : Payload) :
    (handleParsed st p).1.messageId = (recordId st p).messageId := by
  unfold handleParsed
  cases hc : p.choices with
  | none => rfl
  | some cs =>
      cases cs with
      | nil => rfl
      | cons c rest =>
          simp only
          split
          · rfl
          · split <;> rfl

lemma recordId_mid (st : StreamState) (p : Payload) :
    (recordId st p).messageId =
      if st.messageId = "" then
        (if jsTruthy p.id = true then p.id.getD "" else "")
      else st.messageId := by
  unfold recordId
  by_cases hm : st.messageId = ""
  · by_cases hj : jsTruthy p.id = true <;> simp [hm, hj]
  · simp [hm]

/-- The message-identifier component after one frame: unchanged once set;
otherwise set to the frame's id exactly when the frame carries one. -/
lemma onMessage_mid (st : StreamState) (m : Message) :
    (onMessage st m).1.messageId =
      if st.messageId = "" then
        (if carriesId m = true then idOf m else "")
      else st.messageId := by
  cases m with
  | doneSentinel =>
      by_cases hm : st.messageId = "" <;> simp [onMessage, carriesId, hm]
  | malformed raw =>
      by_cases hm : st.messageId = "" <;> simp [onMessage, carriesId, hm]
  | parsed p =>
      have h1 : (onMessage st (Message.parsed p)).1.messageId
          = (handleParsed st p).1.messageId := rfl
      rw [h1, handleParsed_mid, recordId_mid]
      rfl

/-! ## Terminal-event machinery -/

/-- Whether an event is terminal (`done` or `error`). -/
def isTerminal : Event → Bool
  | Event.done => true
  | Event.error _ => true
  | _ => false

lemma onMessage_done (st : StreamState) (m : Message) (h : emitsDone m = true) :
    (onMessage st m).2 = [Event.done] := by
  cases m with
  | doneSentinel => rfl
  | malformed raw => simp [emitsDone] at h
  | parsed p =>
      cases hc : p.choices with
      | none => simp [emitsDone, hc] at h
      | some cs =>
          cases cs with
          | nil => simp [emitsDone, hc] at h
          | cons c rest =>
              simp only [emitsDone, hc] at h
              by_cases hf : c.finish_reason = some "stop"
              · simp [onMessage, handleParsed, hc, hf]
              · simp [hf] at h

lemma onMessage_not_done (st : StreamState) (m : Message) (h : emitsDone m = false) :
    Event.done ∉ (onMessage st m).2 := by
  cases m with
  | doneSentinel => simp [emitsDone] at h
  | malformed raw => simp [onMessage]
  | parsed p =>
      cases hc : p.choices with
      | none => simp [onMessage, handleParsed, hc]
      | some cs =>
          cases cs with
          | nil => simp [onMessage, handleParsed, hc]
          | cons c rest =>
              simp only [emitsDone, hc] at h
              by_cases hf : c.finish_reason = some "stop"
              · simp [hf] at h
              · by_cases hcont : extractContent c = "" <;>
                  simp [onMessage, handleParsed, hc, hf, hcont]

lemma onMessage_no_terminal (st : StreamState) (m : Message) (h : emitsDone m = false) :
    ((onMessage st m).2).filter isTerminal = [] := by
  have hnd := onMessage_not_done st m h
  rcases onMessage_cases st m with ⟨_, h2⟩ | ⟨_, h2⟩ | ⟨c, _, _, h2⟩
  · simp [h2]
  · rw [h2] at hnd; simp at hnd
  · simp [h2, isTerminal]

lemma onMessage_no_error (st : StreamState) (m : Message) :
    ((onMessage st m).2).filter isError = [] := by
  rcases onMessage_cases st m with ⟨_, h2⟩ | ⟨_, h2⟩ | ⟨c, _, _, h2⟩ <;>
    simp [h2, isError]

/-! ## Sequence-level lemmas -/

lemma processFrames_cons (st : StreamState) (m : Message) (ms : List Message) :
    processFrames st (m :: ms)
      = (onMessage st m).2 ++ processFrames (onMessage st m).1 ms := rfl

lemma processFrames_append (st : StreamState) (xs ys : List Message) :
    processFrames st (xs ++ ys)
      = processFrames st xs ++ processFrames (runState st xs) ys := by
  induction xs generalizing st with
  | nil => simp [processFrames, runState]
  | cons m ms ih => simp [processFrames_cons, runState, ih, List.append_assoc]

/-- No frame handled by `onMessage` ever produces an `error` event. -/
lemma processFrames_no_error (msgs : List Message) :
    ∀ st : StreamState, (processFrames st msgs).filter isError = [] := by
  induction msgs with
  | nil => intro st; rfl
  | cons m ms ih =>
      intro st
      rw [processFrames_cons, List.filter_append, onMessage_no_error, ih]
      rfl

/-- The events of a call whose non-final frames are all non-terminating:
a terminal-free list, followed by at most one final `done`. -/
lemma processFrames_terminal (msgs : List Message) :
    ∀ st : StreamState, (∀ m ∈ msgs.dropLast, emitsDone m = false) →
      ∃ l, l.filter isTerminal = [] ∧
        (processFrames st msgs = l ∨ processFrames st msgs = l ++ [Event.done]) := by
  induction msgs with
  | nil => exact fun st _ => ⟨[], rfl, Or.inl rfl⟩
  | cons m ms ih =>
      intro st h
      cases ms with
      | nil =>
          by_cases hd : emitsDone m = true
          · refine ⟨[], rfl, Or.inr ?_⟩
            rw [processFrames_cons, onMessage_done st m hd]
            rfl
          · refine ⟨(onMessage st m).2, ?_, Or.inl ?_⟩
            · exact onMessage_no_terminal st m (by simpa using hd)
            · rw [processFrames_cons]
              simp [processFrames]
      | cons m2 ms2 =>
          have hm : emitsDone m = false := by
            apply h
            rw [List.dropLast_cons₂]
            exact List.mem_cons_self m _
          have hrest : ∀ x ∈ (m2 :: ms2).dropLast, emitsDone x = false := by
            intro x hx
            apply h
            rw [List.dropLast_cons₂]
            exact List.mem_cons_of_mem m hx
          obtain ⟨l, hl1, hl2⟩ := ih (onMessage st m).1 hrest
          refine ⟨(onMessage st m).2 ++ l, ?_, ?_⟩
          · rw [List.filter_append, onMessage_no_terminal st m hm, hl1]
            rfl
          · rcases hl2 with h2 | h2
            · exact Or.inl (by rw [processFrames_cons, h2])
            · exact Or.inr (by rw [processFrames_cons, h2, List.append_assoc])

/-! ## Prefix-extension machinery -/

lemma answerTexts_append (a b : List Event) :
    answerTexts (a ++ b) = answerTexts a ++ answerTexts b := by
  simp [answerTexts, List.filterMap_append]

/-- Per-frame effect on the accumulated text and the emitted answer texts:
either nothing is emitted and the text is unchanged, or one answer is
emitted carrying the (extended) accumulated text. -/
lemma onMessage_texts (st : StreamState) (m : Message) :
    ((onMessage st m).1.result = st.result ∧ answerTexts (onMessage st m).2 = [])
    ∨ (StrPrefixOf st.result (onMessage st m).1.result ∧
        answerTexts (onMessage st m).2 = [(onMessage st m).1.result]) := by
  rcases onMessage_cases st m with ⟨h1, h2⟩ | ⟨h1, h2⟩ | ⟨c, hc, h1, h2⟩
  · exact Or.inl ⟨h1, by simp [h2, answerTexts]⟩
  · exact Or.inl ⟨h1, by simp [h2, answerTexts, eventText]⟩
  · refine Or.inr ⟨h1 ▸ String.strPrefixOf_append st.result c, ?_⟩
    rw [h2]
    simp [answerTexts, eventText, h1]

/-- The accumulated text at call start, followed by the texts of all
emitted answers, forms a prefix-extending chain. -/
lemma processFrames_chain (msgs : List Message) :
    ∀ st : StreamState,
      List.Chain' StrPrefixOf (st.result :: answerTexts (processFrames st msgs)) := by
  induction msgs with
  | nil => intro st; simp [processFrames, answerTexts]
  | cons m ms ih =>
      intro st
      have hrec := ih (onMessage st m).1
      rw [processFrames_cons, answerTexts_append]
      rcases onMessage_texts st m with ⟨h1, h2⟩ | ⟨h1, h2⟩
      · rw [h2, List.nil_append]
        rw [h1] at hrec
        exact hrec
      · rw [h2, List.singleton_append]
        exact List.chain'_cons.mpr ⟨h1, hrec⟩

/-! ## Identifier machinery -/

lemma jsTruthy_getD (o : Option String) (h : jsTruthy o = true) : o.getD "" ≠ "" := by
  cases o with
  | none => simp [jsTruthy] at h
  | some s => simpa [jsTruthy] using h

lemma carriesId_idOf (m : Message) (h : carriesId m = true) : idOf m ≠ "" := by
  cases m with
  | doneSentinel => simp [carriesId] at h
  | malformed raw => simp [carriesId] at h
  | parsed p => exact jsTruthy_getD p.id h

/-- The recorded identifier after the whole call: unchanged when already
set, otherwise the first identifier carried by any frame. -/
lemma runState_mid (msgs : List Message) :
    ∀ st : StreamState, (runState st msgs).messageId =
      if st.messageId = "" then specFirstId msgs else st.messageId := by
  induction msgs with
  | nil =>
      intro st
      by_cases hm : st.messageId = "" <;> simp [runState, specFirstId, hm]
  | cons m ms ih =>
      intro st
      rw [show runState st (m :: ms) = runState (onMessage st m).1 ms from rfl, ih,
        onMessage_mid]
      by_cases hm : st.messageId = ""
      · by_cases hci : carriesId m = true
        · have hne : idOf m ≠ "" := carriesId_idOf m hci
          simp [hm, hci, specFirstId, hne]
        · simp [hm, hci, specFirstId]
      · simp [hm]

lemma onMessage_answer_ids (st : StreamState) (m : Message) (t a b : String)
    (h : Event.answer t a b ∈ (onMessage st m).2) :
    a = (onMessage st m).1.messageId ∧ b = (onMessage st m).1.messageId := by
  rcases onMessage_cases st m with ⟨_, h2⟩ | ⟨_, h2⟩ | ⟨c, _, _, h2⟩
  · rw [h2] at h; simp at h
  · rw [h2] at h; simp at h
  · rw [h2] at h
    simp only [List.mem_singleton, Event.answer.injEq] at h
    exact ⟨h.2.1, h.2.2⟩

/-- Every `answer` event of a call carries equal message and conversation
identifiers, both equal to the initially recorded identifier if the call
started with one, and otherwise either empty or equal to the first
identifier carried by any frame of the call. -/
lemma processFrames_answer_ids (msgs : List Message) :
    ∀ (st : StreamState) (t a b : String),
      Event.answer t a b ∈ processFrames st msgs →
        a = b ∧ (a = st.messageId ∨ (st.messageId = "" ∧ a = specFirstId msgs)) := by
  induction msgs with
  | nil => intro st t a b h; simp [processFrames] at h
  | cons m ms ih =>
      intro st t a b h
      rw [processFrames_cons] at h
      rcases List.mem_append.mp h with h | h
      · obtain ⟨ha, hb⟩ := onMessage_answer_ids st m t a b h
        refine ⟨ha.trans hb.symm, ?_⟩
        rw [ha, onMessage_mid]
        by_cases hm : st.messageId = ""
        · by_cases hci : carriesId m = true
          · exact Or.inr ⟨hm, by simp [hm, hci, specFirstId]⟩
          · exact Or.inl (by simp [hm, hci])
        · exact Or.inl (by simp [hm])
      · obtain ⟨hab, hrest⟩ := ih (onMessage st m).1 t a b h
        refine ⟨hab, ?_⟩
        rw [onMessage_mid] at hrest
        by_cases hm : st.messageId = ""
        · by_cases hci : carriesId m = true
          · rcases hrest with ha | ⟨hmid0, _⟩
            · refine Or.inr ⟨hm, ?_⟩
              rw [ha]
              simp [hm, hci, specFirstId]
            · exfalso
              rw [if_pos hm, if_pos hci] at hmid0
              exact carriesId_idOf m hci hmid0
          · rcases hrest with ha | ⟨_, ha⟩
            · refine Or.inl ?_
              rw [ha]
              simp [hm, hci]
            · exact Or.inr ⟨hm, by rw [ha]; simp [specFirstId, hci]⟩
        · rcases hrest with ha | ⟨hmid0, _⟩
          · exact Or.inl (by rw [ha, if_neg hm])
          · exfalso
            rw [if_neg hm] at hmid0
            exact hm hmid0

lemma specFirstId_eq_empty (pre : List Message)
    (h : ∀ m ∈ pre, carriesId m = false) : specFirstId pre = "" := by
  induction pre with
  | nil => rfl
  | cons m ms ih =>
      have hm := h m (List.mem_cons_self m ms)
      rw [specFirstId, if_neg (by simp [hm])]
      exact ih fun x hx => h x (List.mem_cons_of_mem m hx)

/-! ## The claims -/

/-- C1, counterexample: the `onMessage` handler does not latch after a
`done`: delivering the sentinel twice emits `done` twice, so a call can
emit two terminal events and events after the first `Done`. -/
theorem claim_C1_counterexample :
    generateAnswer [Message.doneSentinel, Message.doneSentinel]
      = [Event.done, Event.done] := rfl

/-- C1, amended: the handler processes every delivered frame independently
(no terminal latch).  Provided no frame before the last one is
terminal-triggering (sentinel or stop finish-reason), at most one terminal
event is emitted and no event of any kind follows it: every event other
than a possible final `done` is non-terminal. -/
theorem claim_C1_amended (msgs : List Message)
    (h : ∀ m ∈ msgs.dropLast, emitsDone m = false) :
    ((generateAnswer msgs).dropLast.filter isTerminal = [])
    ∧ (((generateAnswer msgs).filter isTerminal).length ≤ 1) := by
  obtain ⟨l, hl1, hl2⟩ := processFrames_terminal msgs initState h
  rcases hl2 with h2 | h2
  · have hg : generateAnswer msgs = l := h2
    constructor
    · rw [hg]
      have hsub := (List.dropLast_sublist l).filter isTerminal
      rw [hl1] at hsub
      exact List.sublist_nil.mp hsub
    · rw [hg, hl1]
      simp
  · have hg : generateAnswer msgs = l ++ [Event.done] := h2
    constructor
    · rw [hg, List.dropLast_concat, hl1]
    · rw [hg, List.filter_append, hl1]
      simp [isTerminal]

/-- C1, witness: a content frame followed by a single final sentinel
satisfies the hypothesis and yields at most one terminal event, with no
event after it. -/
theorem claim_C1_witness :
    ((generateAnswer
        [Message.parsed ⟨some "m1", some [⟨some ⟨some "Hi"⟩, none⟩]⟩,
         Message.doneSentinel]).dropLast.filter isTerminal = [])
    ∧ (((generateAnswer
        [Message.parsed ⟨some "m1", some [⟨some ⟨some "Hi"⟩, none⟩]⟩,
         Message.doneSentinel]).filter isTerminal).length ≤ 1) :=
  claim_C1_amended
    [Message.parsed ⟨some "m1", some [⟨some ⟨some "Hi"⟩, none⟩]⟩,
     Message.doneSentinel] (by decide)

/-- C2, counterexample: a stream that ends after a single content frame —
so no `Done` was ever emitted — produces no terminal `Error` event (in
fact no terminal event at all): the claimed "exactly one terminal Error"
fails at this input. -/
theorem claim_C2_counterexample :
    generateAnswer [Message.parsed ⟨some "m1", some [⟨some ⟨some "Hi"⟩, none⟩]⟩]
      = [Event.answer "Hi" "m1" "m1"] := by decide

/-- C2, amended: `generateAnswer` never emits an `Error` event for any
delivered frame sequence; a transport error propagates to the caller as a
rejection of the returned promise, and a stream that ends without `Done`
simply produces no terminal event. -/
theorem claim_C2_amended (msgs : List Message) :
    (generateAnswer msgs).filter isError = [] :=
  processFrames_no_error msgs initState

/-- C3: on the frame sequence `{"id":"m1","choices":[{"delta":{"content":
"Hel"}}]}`, `{"choices":[{"delta":{"content":"lo"}}]}`, `[DONE]`, the call
emits exactly `Answer{text:"Hel", id:"m1"}`, `Answer{text:"Hello",
id:"m1"}`, `Done`, in that order. -/
theorem claim_C3 :
    generateAnswer
      [Message.parsed ⟨some "m1", some [⟨some ⟨some "Hel"⟩, none⟩]⟩,
       Message.parsed ⟨none, some [⟨some ⟨some "lo"⟩, none⟩]⟩,
       Message.doneSentinel]
      = [Event.answer "Hel" "m1" "m1", Event.answer "Hello" "m1" "m1",
         Event.done] := by decide

/-- C4: within one call, the texts of successive `answer` events are
prefix-extending: each earlier text is a (non-strict) prefix of the next. -/
theorem claim_C4 (msgs : List Message) :
    List.Chain' StrPrefixOf (answerTexts (generateAnswer msgs)) :=
  (processFrames_chain msgs initState).tail

/-- C5: a frame whose payload is not valid JSON (and is not the sentinel)
is skipped by the `catch` without emitting any event and without changing
the captured state, and the stream continues: a later valid completion
frame still completes the call. -/
theorem claim_C5 :
    (∀ (st : StreamState) (raw : String) (ms : List Message),
      onMessage st (Message.malformed raw) = (st, [])
      ∧ processFrames st (Message.malformed raw :: ms) = processFrames st ms)
    ∧ generateAnswer
        [Message.malformed "oops not json",
         Message.parsed ⟨none, some [⟨none, some "stop"⟩]⟩]
        = [Event.done] :=
  ⟨fun st raw ms => ⟨rfl, by rw [processFrames_cons]; rfl⟩, by decide⟩

/-- C6: a parsed frame whose first choice has `finish_reason = "stop"` and
no content delta makes the handler emit exactly `done` — in particular no
preceding empty-text `answer` event.  (The no-delta hypothesis mirrors the
claim; the code takes the `stop` branch before reading the delta.) -/
theorem claim_C6 (st : StreamState) (p : Payload) (c : Choice)
    (cs : List Choice) (hc : p.choices = some (c :: cs))
    (hs : c.finish_reason = some "stop") (_hd : c.delta = none) :
    (onMessage st (Message.parsed p)).2 = [Event.done] := by
  simp [onMessage, handleParsed, hc, hs]

/-- C6, witness: a concrete stop frame with no delta emits exactly `done`. -/
theorem claim_C6_witness :
    (onMessage initState (Message.parsed ⟨none, some [⟨none, some "stop"⟩]⟩)).2
      = [Event.done] :=
  claim_C6 initState ⟨none, some [⟨none, some "stop"⟩]⟩ ⟨none, some "stop"⟩ []
    rfl rfl rfl

/-- C7: the message identifier of a call is write-once — the identifier
after the whole call equals the identifier carried by the first
successfully parsed frame that carries one, an already-set identifier is
never overwritten — and every `answer` event carries equal message and
conversation identifiers, both equal to the recorded identifier (the
empty string before any identifier-carrying frame). -/
theorem claim_C7 (msgs : List Message) :
    (runState initState msgs).messageId = specFirstId msgs
    ∧ (∀ t a b, Event.answer t a b ∈ generateAnswer msgs →
        a = b ∧ (a = "" ∨ a = specFirstId msgs))
    ∧ (∀ st : StreamState, st.messageId ≠ "" →
        (runState st msgs).messageId = st.messageId) := by
  refine ⟨?_, ?_, ?_⟩
  · rw [runState_mid]
    rfl
  · intro t a b h
    obtain ⟨hab, h3⟩ := processFrames_answer_ids msgs initState t a b h
    refine ⟨hab, ?_⟩
    rcases h3 with h3 | ⟨_, h3⟩
    · exact Or.inl h3
    · exact Or.inr h3
  · intro st hst
    rw [runState_mid, if_neg hst]

/-- C7, witness: on a concrete one-frame stream carrying id `m1`, the
recorded identifier is the first carried one, the emitted answer's two
identifiers agree, and a pre-set identifier is not overwritten. -/
theorem claim_C7_witness :
    ((runState initState
        [Message.parsed ⟨some "m1", some [⟨some ⟨some "Hel"⟩, none⟩]⟩]).messageId
      = specFirstId
          [Message.parsed ⟨some "m1", some [⟨some ⟨some "Hel"⟩, none⟩]⟩])
    ∧ ("m1" = "m1" ∧ ("m1" = "" ∨ "m1" = specFirstId
          [Message.parsed ⟨some "m1", some [⟨some ⟨some "Hel"⟩, none⟩]⟩]))
    ∧ ((runState { result := "", messageId := "m0" }
        [Message.parsed ⟨some "m1", some [⟨some ⟨some "Hel"⟩, none⟩]⟩]).messageId
      = "m0") :=
  ⟨(claim_C7 [Message.parsed ⟨some "m1", some [⟨some ⟨some "Hel"⟩, none⟩]⟩]).1,
   (claim_C7 [Message.parsed ⟨some "m1", some [⟨some ⟨some "Hel"⟩, none⟩]⟩]).2.1
     "Hel" "m1" "m1" (by decide),
   (claim_C7 [Message.parsed ⟨some "m1", some [⟨some ⟨some "Hel"⟩, none⟩]⟩]).2.2
     { result := "", messageId := "m0" } (by decide)⟩

/-- C8: for a parsed frame with at least one choice and a finish reason
other than `"stop"`, an `answer` event is emitted exactly when the
extracted delta text is non-empty — then a single `answer` carrying the
extended accumulated text — while an empty extraction (in particular an
absent delta) produces no event and leaves the accumulated text
unchanged. -/
theorem claim_C8 (st : StreamState) (p : Payload) (c : Choice)
    (cs : List Choice) (hc : p.choices = some (c :: cs))
    (hf : c.finish_reason ≠ some "stop") :
    (extractContent c ≠ "" →
      (onMessage st (Message.parsed p)).2 =
        [Event.answer (st.result ++ extractContent c)
          (recordId st p).messageId (recordId st p).messageId])
    ∧ (extractContent c = "" →
        (onMessage st (Message.parsed p)).2 = []
        ∧ (onMessage st (Message.parsed p)).1.result = st.result)
    ∧ (c.delta = none → extractContent c = "") := by
  refine ⟨?_, ?_, ?_⟩
  · intro hne
    simp [onMessage, handleParsed, hc, hf, hne, recordId_result]
  · intro h0
    constructor
    · simp [onMessage, handleParsed, hc, hf, h0]
    · simp [onMessage, handleParsed, hc, hf, h0, recordId_result]
  · intro hd
    simp [extractContent, hd]

/-- C8, witness: a concrete non-empty content delta emits exactly one
`answer` carrying the extended accumulated text. -/
theorem claim_C8_witness :
    (onMessage initState
        (Message.parsed ⟨some "m1", some [⟨some ⟨some "Hi"⟩, none⟩]⟩)).2 =
      [Event.answer
        (initState.result ++ extractContent ⟨some ⟨some "Hi"⟩, none⟩)
        (recordId initState ⟨some "m1", some [⟨some ⟨some "Hi"⟩, none⟩]⟩).messageId
        (recordId initState ⟨some "m1", some [⟨some ⟨some "Hi"⟩, none⟩]⟩).messageId] :=
  (claim_C8 initState ⟨some "m1", some [⟨some ⟨some "Hi"⟩, none⟩]⟩
    ⟨some ⟨some "Hi"⟩, none⟩ [] rfl (by decide)).1 (by decide)

/-- C9: constructing the provider with an omitted/`undefined` (`none`) or
empty-string base URL yields the default `https://api.openai.com`, and
`generateAnswer` POSTs to `<baseUrl>/v1/chat/completions`. -/
theorem claim_C9 (token model : String) (u : Option String)
    (h : u = none ∨ u = some "") :
    (OpenAIProvider.create token model u).apiBaseUrl = "https://api.openai.com"
    ∧ (OpenAIProvider.create token model u).chatCompletionsUrl
        = "https://api.openai.com/v1/chat/completions" := by
  rcases h with h | h <;> subst h <;>
    exact ⟨rfl, by simp [OpenAIProvider.create, OpenAIProvider.chatCompletionsUrl]⟩

/-- C9, witness: a concrete construction with the empty-string base URL. -/
theorem claim_C9_witness :
    (OpenAIProvider.create "sk-test" "gpt-4o" (some "")).apiBaseUrl
      = "https://api.openai.com"
    ∧ (OpenAIProvider.create "sk-test" "gpt-4o" (some "")).chatCompletionsUrl
        = "https://api.openai.com/v1/chat/completions" :=
  claim_C9 "sk-test" "gpt-4o" (some "") (Or.inr rfl)

/-- C10: events produced for an identifier-free prefix of the stream form
the corresponding prefix of the call's events, and every `answer` event
among them carries the empty string as both message and conversation
identifier. -/
theorem claim_C10 (pre post : List Message)
    (h : ∀ m ∈ pre, carriesId m = false) :
    generateAnswer (pre ++ post)
      = processFrames initState pre
        ++ processFrames (runState initState pre) post
    ∧ ∀ t a b, Event.answer t a b ∈ processFrames initState pre →
        a = "" ∧ b = "" := by
  refine ⟨processFrames_append initState pre post, ?_⟩
  intro t a b hm
  obtain ⟨hab, h3⟩ := processFrames_answer_ids pre initState t a b hm
  have hfirst : specFirstId pre = "" := specFirstId_eq_empty pre h
  rcases h3 with h3 | ⟨_, h3⟩
  · exact ⟨h3, hab.symm.trans h3⟩
  · rw [hfirst] at h3
    exact ⟨h3, hab.symm.trans h3⟩

/-- C10, witness: a concrete id-free content frame followed by the
sentinel; its answer event carries empty identifiers. -/
theorem claim_C10_witness :
    (generateAnswer
        ([Message.parsed ⟨none, some [⟨some ⟨some "Hi"⟩, none⟩]⟩]
          ++ [Message.doneSentinel])
      = processFrames initState
          [Message.parsed ⟨none, some [⟨some ⟨some "Hi"⟩, none⟩]⟩]
        ++ processFrames
            (runState initState
              [Message.parsed ⟨none, some [⟨some ⟨some "Hi"⟩, none⟩]⟩])
            [Message.doneSentinel])
    ∧ (("" : String) = "" ∧ ("" : String) = "") :=
  ⟨(claim_C10 [Message.parsed ⟨none, some [⟨some ⟨some "Hi"⟩, none⟩]⟩]
      [Message.doneSentinel] (by decide)).1,
   (claim_C10 [Message.parsed ⟨none, some [⟨some ⟨some "Hi"⟩, none⟩]⟩]
      [Message.doneSentinel] (by decide)).2
     "Hi" "" "" (by decide)⟩
